import Mathlib

/-!
Verification development for the lwan template engine
(`src/lib/lwan-template.c`): a shallow embedding of its compile pipeline
(lexer, parser, post-processing linker) and its interpreter, with theorems
about the behaviour of the embedded code.

Modelling conventions:
* byte strings are `List Char` (the C code is byte oriented and templates
  are NUL-terminated; we model the region before the first NUL);
* pointers used only for identity comparison (descriptor addresses) are
  modelled by a `uid : Nat` field; distinct descriptors are given distinct
  uids, mirroring distinct addresses;
* the caller-supplied function pointers in a descriptor
  (`append_to_strbuf`, `get_is_empty`, `generator`) are modelled by
  first-order tags, interpreted at render time: the built-in string
  appender gets its own tag (`post_process_template` compares against it
  by function-pointer identity), all other appenders are `aOther id`
  resolved through an environment, and similarly for emptiness predicates;
  a generator tag is resolved through an environment mapping it to the
  list of successive record states it yields;
* `list_desc` is a pointer to a descriptor array; we model the pointer as
  an index into a descriptor heap `Nat → List VarDescriptor`
  (`none` models a NULL `list_desc`);
* undefined behaviour (dispatching on a chunk whose payload has the wrong
  shape, calling a NULL function pointer, running past the chunk array)
  makes the interpreter return `none`;
* allocation failures and logging (`lwan_status_*`) are not modelled.
-/

namespace Lwan

/-- Byte strings. -/
abbrev Str := List Char

/-- The HTML-special characters, via their codes so that quote characters
need not appear as delicate literals. -/
def quoteChar : Char := Char.ofNat 34

def aposChar : Char := Char.ofNat 39

/-! ### Actions, flags, lexemes (lwan-template.c lines 56-148) -/

/-- `enum action`. -/
inductive Action where
  | ACTION_APPEND
  | ACTION_APPEND_CHAR
  | ACTION_VARIABLE
  | ACTION_VARIABLE_STR
  | ACTION_VARIABLE_STR_ESCAPE
  | ACTION_START_ITER
  | ACTION_END_ITER
  | ACTION_IF_VARIABLE_NOT_EMPTY
  | ACTION_END_IF_VARIABLE_NOT_EMPTY
  | ACTION_APPLY_TPL
  | ACTION_LAST
deriving DecidableEq, Repr

open Action

/-- `enum flags` (a bitmask in C; three independent bits). -/
structure Flags where
  negate : Bool
  quote : Bool
  no_free : Bool
deriving DecidableEq, Repr

/-- The empty flag set (`0`). -/
def Flags.zero : Flags := ⟨false, false, false⟩

/-- Bitwise or of two flag sets. -/
def Flags.union (a b : Flags) : Flags :=
  ⟨a.negate || b.negate, a.quote || b.quote, a.no_free || b.no_free⟩

/-- `enum lexeme_type`. -/
inductive LexemeType where
  | ERROR
  | EOF
  | IDENTIFIER
  | LEFT_META
  | HASH
  | RIGHT_META
  | TEXT
  | SLASH
  | QUESTION_MARK
  | HAT
  | GREATER_THAN
  | OPEN_CURLY_BRACE
  | CLOSE_CURLY_BRACE
deriving DecidableEq, Repr

open LexemeType

/-- `struct lexeme`: a type and a text slice (for `ERROR`, the message). -/
structure Lexeme where
  type : LexemeType
  value : Str
deriving DecidableEq, Repr

/-! ### Variable descriptors (lwan-template.h, consumed by lines 183-255) -/

/-- Tag standing for a descriptor's `append_to_strbuf` function pointer.
`aStr` is the built-in `lwan_append_str_to_strbuf` (the post-processor
compares against it by identity), `aInt` the built-in integer appender,
anything else is `aOther id`, resolved through an environment at render
time. -/
inductive AppendKind where
  | aStr
  | aInt
  | aOther (id : Nat)
deriving DecidableEq, Repr

/-- Tag standing for a descriptor's `get_is_empty` function pointer:
the built-in string and integer predicates, or an environment-resolved
caller function. -/
inductive EmptyKind where
  | eStr
  | eInt
  | eOther (id : Nat)
deriving DecidableEq, Repr

/-- `struct lwan_var_descriptor`.  `list_desc` is a pointer to a
NUL-terminated descriptor array: modelled as an index into a descriptor
heap (`none` = NULL).  `generator` is `none` for a NULL generator, or a
tag resolved through a generator environment.  `uid` models the
descriptor's address, used for the identity comparisons the C code
performs on descriptor pointers. -/
structure VarDescriptor where
  name : Str
  offset : Nat
  append_to_strbuf : Option AppendKind
  get_is_empty : EmptyKind
  generator : Option Nat
  list_desc : Option Nat
  uid : Nat
deriving DecidableEq, Repr

/-- A field value inside a caller record.  `vStr none` is a NULL `char *`
field; `vRaw` is memory of any other shape. -/
inductive Value where
  | vStr (s : Option Str)
  | vInt (i : Int)
  | vRaw (n : Nat)
deriving DecidableEq, Repr

/-- A caller record: field values indexed by byte offset. -/
abbrev Record := Nat → Value

/-! ### Chunks and templates (lwan-template.c lines 99-110) -/

/-- The payload stored in a chunk's `void *data` slot.  The C code reuses
one pointer field for all of these shapes; the sum type records which
shape is stored (reading a slot at the wrong shape is undefined behaviour
in C and makes the interpreter return `none`):
`dStrbuf`  - owned text buffer (`APPEND`);
`dChar`    - a byte stored in the pointer slot (`APPEND_CHAR`);
`dVar`     - descriptor pointer (`VARIABLE` and unlinked open/close chunks);
`dOffset`  - plain field offset (`VARIABLE_STR`, `VARIABLE_STR_ESCAPE`);
`dIndex`   - chunk index stored in the pointer slot (unlinked `END_ITER`);
`dChunkDesc` - linker record `struct chunk_descriptor` = (descriptor,
chunk pointer), the pointer stored as that chunk's index;
`dChunkPtr` - pointer to a chunk (linked `END_ITER` back-reference). -/
inductive ChunkData where
  | dNull
  | dStrbuf (s : Str)
  | dChar (c : Char)
  | dVar (d : VarDescriptor)
  | dOffset (o : Nat)
  | dIndex (i : Nat)
  | dChunkDesc (d : VarDescriptor) (chunkIdx : Nat)
  | dChunkPtr (i : Nat)
deriving DecidableEq, Repr

open ChunkData

/-- `struct chunk`. -/
structure Chunk where
  action : Action
  data : ChunkData
  flags : Flags
deriving DecidableEq, Repr

/-- `struct lwan_tpl`: the chunk program plus the output-size hint. -/
structure LwanTpl where
  chunks : List Chunk
  minimum_size : Nat
deriving DecidableEq, Repr

/-! ### Built-in appenders and emptiness predicates (lines 866-935) -/

/-- `lwan_append_int_to_strbuf` / `int_to_string`.
    Modelled from the spec: `int_to_string` (`int-to-str.h`, not under
    `src/`) formats the integer in decimal, with a leading `-` for
    negative values and no padding. -/
def lwan_append_int_to_strbuf (i : Int) : Str := (toString i).toList

/-- `lwan_tpl_int_is_empty`: the integer equals zero. -/
def lwan_tpl_int_is_empty (i : Int) : Bool := i == 0

/-- `lwan_append_str_to_strbuf`.  The argument models the `void *ptr`
passed in: `none` is a NULL `ptr`, `some none` a NULL string stored at
`ptr` (C dereferences a NULL `ptr` here; rendering never passes one, and
we model the read of a NULL `ptr` as producing nothing, like a NULL
string). -/
def lwan_append_str_to_strbuf (ptr : Option (Option Str)) : Str :=
  match ptr with
  | none => []
  | some none => []
  | some (some s) => s

/-- `lwan_append_str_escaped_to_strbuf` (lines 901-926): NULL `ptr` and
NULL string append nothing; otherwise each byte is escaped through the
fixed table and all other bytes are copied as-is. -/
def escapeByteList : Str → Str
  | [] => []
  | c :: rest =>
    (if c = '<' then ('&' :: 'l' :: 't' :: ';' :: [])
     else if c = '>' then ('&' :: 'g' :: 't' :: ';' :: [])
     else if c = '&' then ('&' :: 'a' :: 'm' :: 'p' :: ';' :: [])
     else if c = quoteChar then ('&' :: 'q' :: 'u' :: 'o' :: 't' :: ';' :: [])
     else if c = aposChar then ('&' :: '#' :: 'x' :: '2' :: '7' :: ';' :: [])
     else if c = '/' then ('&' :: '#' :: 'x' :: '2' :: 'f' :: ';' :: [])
     else [c]) ++ escapeByteList rest

/-- `lwan_append_str_escaped_to_strbuf`: the entry point with its two
NULL checks. -/
def lwan_append_str_escaped_to_strbuf (ptr : Option (Option Str)) : Str :=
  match ptr with
  | none => []
  | some none => []
  | some (some s) => escapeByteList s

/-- `lwan_tpl_str_is_empty` (lines 928-935): NULL `ptr`, NULL string, or
a string whose first byte is NUL. -/
def lwan_tpl_str_is_empty (ptr : Option (Option Str)) : Bool :=
  match ptr with
  | none => true
  | some none => true
  | some (some s) => s.isEmpty

/-! ### The double emptiness predicate (lines 878-891)

IEEE-754 binary64 values, by representation: a sign bit, an 11-bit biased
exponent and a 52-bit mantissa. -/

/-- An IEEE-754 binary64 datum. -/
structure Float64 where
  sign : Bool
  biasedExp : Fin 2048
  mantissa : Fin 4503599627370496
deriving DecidableEq, Repr

/-- Classification constants.
    Modelled from the spec: the values of the `FP_*` macros come from the
    libc `<math.h>`, which is not under `src/`; these are the glibc (and
    musl) values. -/
def FP_NAN : Nat := 0

def FP_INFINITE : Nat := 1

def FP_ZERO : Nat := 2

def FP_SUBNORMAL : Nat := 3

def FP_NORMAL : Nat := 4

/-- `__builtin_fpclassify(nanv, infv, normv, subv, zerov, x)`: returns the
argument selected by the class of `x`. -/
def builtinFpclassify (nanv infv normv subv zerov : Nat) (f : Float64) : Nat :=
  if f.biasedExp.val = 2047 then (if f.mantissa.val = 0 then infv else nanv)
  else if f.biasedExp.val = 0 then (if f.mantissa.val = 0 then zerov else subv)
  else normv

/-- `fpclassify(x)` as in the libc: the classification constant of `x`. -/
def fpclassifyF (f : Float64) : Nat :=
  builtinFpclassify FP_NAN FP_INFINITE FP_NORMAL FP_SUBNORMAL FP_ZERO f

/-- `lwan_tpl_double_is_empty`, `#if defined(HAVE_BUILTIN_FPCLASSIFY)`
branch (lines 885-887): the builtin's result — the classification
constant itself — converted to `bool` by the C `return`, i.e. compared
against 0.  (Modelled from the spec: `HAVE_BUILTIN_FPCLASSIFY` is set by
the build system, not under `src/`; it is defined whenever the compiler
offers the builtin, i.e. on every GCC/Clang build.) -/
def lwan_tpl_double_is_empty (f : Float64) : Bool :=
  builtinFpclassify FP_NAN FP_INFINITE FP_NORMAL FP_SUBNORMAL FP_ZERO f ≠ 0

/-- `lwan_tpl_double_is_empty`, `#else` branch (line 889):
`fpclassify(*(double *)ptr) == FP_ZERO`. -/
def lwan_tpl_double_is_empty_fpclassify (f : Float64) : Bool :=
  fpclassifyF f == FP_ZERO

/-- The real value of a finite binary64 datum (meaningless for
infinities/NaNs, which have `biasedExp = 2047`). -/
def floatVal (f : Float64) : ℚ :=
  (if f.sign then -1 else 1) *
    (if f.biasedExp.val = 0 then (f.mantissa.val : ℚ) / 2 ^ 1074
     else ((2 ^ 52 + f.mantissa.val : ℚ) * 2 ^ f.biasedExp.val) / 2 ^ 1075)

/-- The double 1.0. -/
def floatOne : Float64 := ⟨false, ⟨1023, by norm_num⟩, ⟨0, by norm_num⟩⟩

/-- The double +0.0. -/
def floatPosZero : Float64 := ⟨false, ⟨0, by norm_num⟩, ⟨0, by norm_num⟩⟩

/-- The double -0.0. -/
def floatNegZero : Float64 := ⟨true, ⟨0, by norm_num⟩, ⟨0, by norm_num⟩⟩

/-! ### Character classes (line 339-342, ctype.h in the C locale) -/

/-- `isalnum` in the C locale (ASCII letters and digits). -/
def isAlnumC (c : Char) : Bool :=
  (('a' ≤ c && c ≤ 'z') || ('A' ≤ c && c ≤ 'Z') || ('0' ≤ c && c ≤ '9'))

/-- `isident` (line 339): alphanumeric or `_`, `.`, `/`. -/
def isident (c : Char) : Bool :=
  isAlnumC c || c = '_' || c = '.' || c = '/'

/-- `isspace` in the C locale. -/
def isSpaceC (c : Char) : Bool :=
  c = ' ' || c = Char.ofNat 9 || c = Char.ofNat 10 || c = Char.ofNat 11 ||
    c = Char.ofNat 12 || c = Char.ofNat 13

/-! ### Lexer (lines 125-509)

`struct lexer` holds the input region and the two cursors `start` (begin
of the pending run) and `pos` (read position); `end` is the input length
(the C code stops at the first NUL; we take the whole list).  Lexemes go
into a ring buffer consumed by the parser; the buffer is always drained
before it can overflow (a state emits at most three lexemes per step), so
we may equivalently run the machine eagerly and hand the parser the whole
lexeme list. -/

structure Lexer where
  input : Str
  pos : Nat
  start : Nat
deriving DecidableEq, Repr

/-- `next` (line 284): the byte at `pos`, advancing, or EOF (`none`)
without advancing. -/
def lexNextChar (l : Lexer) : Option Char × Lexer :=
  if l.pos < l.input.length then
    (some (l.input.getD l.pos ' '), { l with pos := l.pos + 1 })
  else (none, l)

/-- `backup` (line 295).  The C code decrements unconditionally, even when
the preceding `next` hit EOF and did not advance. -/
def lexBackup (l : Lexer) : Lexer := { l with pos := l.pos - 1 }

/-- `ignore` (line 293). -/
def lexIgnore (l : Lexer) : Lexer := { l with start := l.pos }

/-- `emit` (line 272): a lexeme whose value is the slice from `start` to
`pos`; `start` moves to `pos` (via `emit_lexeme`). -/
def lexEmit (l : Lexer) (t : LexemeType) : Lexeme × Lexer :=
  (⟨t, (l.input.drop l.start).take (l.pos - l.start)⟩, { l with start := l.pos })

/-- Does the input at `pos` start with the given literal
(`strncmp(lexer->pos, ..., n)`)?  Reading at the end of the region sees
the NUL terminator, so a partial prefix never matches. -/
def lexLooksAt (l : Lexer) (s : Str) : Bool :=
  s.isPrefixOf (l.input.drop l.pos)

/-- The identifiers of the lexer state functions, for the driver. -/
inductive LexState where
  | LText
  | LLeftMeta
  | LRightMeta
  | LInsideAction
  | LIdentifier
  | LQuotedIdentifier
  | LIncludeName
  | LComment
deriving DecidableEq, Repr

open LexState

/-- The result of running one lexer state step: the lexemes it emitted,
the new lexer, and the next state (`none` = terminal, as when a C state
function returns NULL). -/
structure LexStep where
  emitted : List Lexeme
  lexer : Lexer
  next : Option LexState

/-- `lex_error` (line 326): emit an ERROR lexeme carrying the message and
stop. -/
def lexError (l : Lexer) (msg : String) : LexStep :=
  ⟨[⟨LexemeType.ERROR, msg.toList⟩], { l with start := l.pos }, none⟩

/-- The scanning loop of `lex_identifier` (lines 344-351):
`while (isident(next(lexer))); backup(lexer); emit(lexer, IDENTIFIER)`.
Fuel is an upper bound on the remaining input; the loop consumes one byte
per round. -/
def lexIdentCore : Nat → Lexer → Lexeme × Lexer
  | 0, l => lexEmit (lexBackup l) LexemeType.IDENTIFIER
  | fuel + 1, l =>
    match lexNextChar l with
    | (some c, l1) =>
      if isident c then lexIdentCore fuel l1
      else lexEmit (lexBackup l1) LexemeType.IDENTIFIER
    | (none, l1) => lexEmit (lexBackup l1) LexemeType.IDENTIFIER

/-- `lex_identifier` as a state: scan the identifier, return to
`lex_inside_action`. -/
def lexIdentifierState (l : Lexer) : LexStep :=
  let (lx, l1) := lexIdentCore (l.input.length + 1) l
  ⟨[lx], l1, some LInsideAction⟩

/-- `lex_quoted_identifier` (lines 374-387): emit `OPEN_CURLY_BRACE`, lex
one identifier inline, require a literal `}`, emit `CLOSE_CURLY_BRACE`. -/
def lexQuotedIdentifierState (l : Lexer) : LexStep :=
  let (op, l1) := lexEmit l LexemeType.OPEN_CURLY_BRACE
  let (lx, l2) := lexIdentCore (l1.input.length + 1) l1
  match lexNextChar l2 with
  | (some c, l3) =>
    if c = Char.ofNat 125 then
      let (cl, l4) := lexEmit l3 LexemeType.CLOSE_CURLY_BRACE
      ⟨[op, lx, cl], l4, some LInsideAction⟩
    else
      let st := lexError l3 "expecting close brace"
      ⟨[op, lx] ++ st.emitted, st.lexer, st.next⟩
  | (none, l3) =>
    let st := lexError l3 "expecting close brace"
    ⟨[op, lx] ++ st.emitted, st.lexer, st.next⟩

/-- The bracket-counting loop of `lex_comment` (lines 389-406); the count
starts at 2 (`strlen(left_meta)`). -/
def lexCommentCore : Nat → Nat → Lexer → LexStep
  | 0, _, l => lexError l "unexpected EOF while scanning comment end"
  | fuel + 1, brackets, l =>
    match lexNextChar l with
    | (none, l1) => lexError l1 "unexpected EOF while scanning comment end"
    | (some c, l1) =>
      let brackets1 :=
        if c = Char.ofNat 123 then brackets + 1
        else if c = Char.ofNat 125 then brackets - 1
        else brackets
      if c = Char.ofNat 125 && brackets1 = 0 then
        ⟨[], lexIgnore l1, some LText⟩
      else lexCommentCore fuel brackets1 l1

/-- `lex_comment` as a state. -/
def lexCommentState (l : Lexer) : LexStep :=
  lexCommentCore (l.input.length + 1) 2 l

/-- One round of `lex_inside_action`'s loop (lines 408-454).  The C body
either returns a state or `continue`s after skipping whitespace;
returning the same state re-enters the loop with identical effect. -/
def lexInsideActionState (l : Lexer) : LexStep :=
  if lexLooksAt l (Char.ofNat 125 :: Char.ofNat 125 :: []) then
    ⟨[], l, some LRightMeta⟩
  else
    match lexNextChar l with
    | (none, l1) => lexError l1 "unexpected EOF while scanning action"
    | (some c, l1) =>
      if c = Char.ofNat 10 then lexError l1 "actions cannot span multiple lines"
      else if c = '#' then
        let (lx, l2) := lexEmit l1 LexemeType.HASH
        ⟨[lx], l2, some LInsideAction⟩
      else if c = '?' then
        let (lx, l2) := lexEmit l1 LexemeType.QUESTION_MARK
        ⟨[lx], l2, some LInsideAction⟩
      else if c = '^' then
        let (lx, l2) := lexEmit l1 LexemeType.HAT
        ⟨[lx], l2, some LInsideAction⟩
      else if c = '>' then
        let (lx, l2) := lexEmit l1 LexemeType.GREATER_THAN
        ⟨[lx], l2, some LIncludeName⟩
      else if c = Char.ofNat 123 then ⟨[], l1, some LQuotedIdentifier⟩
      else if c = '/' then
        let (lx, l2) := lexEmit l1 LexemeType.SLASH
        ⟨[lx], l2, some LInsideAction⟩
      else if isSpaceC c then ⟨[], lexIgnore l1, some LInsideAction⟩
      else if isident c then ⟨[], lexBackup l1, some LIdentifier⟩
      else lexError l1 "unexpected character"

/-- `lex_left_meta` (lines 456-466): skip `{{`; `!` starts a comment,
otherwise back up, emit `LEFT_META` and scan the action. -/
def lexLeftMetaState (l : Lexer) : LexStep :=
  let l1 : Lexer := { l with pos := l.pos + 2 }
  match lexNextChar l1 with
  | (some c, l2) =>
    if c = '!' then ⟨[], l2, some LComment⟩
    else
      let (lx, l3) := lexEmit (lexBackup l2) LexemeType.LEFT_META
      ⟨[lx], l3, some LInsideAction⟩
  | (none, l2) =>
    let (lx, l3) := lexEmit (lexBackup l2) LexemeType.LEFT_META
    ⟨[lx], l3, some LInsideAction⟩

/-- `lex_right_meta` (lines 468-473): skip `}}`, emit `RIGHT_META`. -/
def lexRightMetaState (l : Lexer) : LexStep :=
  let l1 : Lexer := { l with pos := l.pos + 2 }
  let (lx, l2) := lexEmit l1 LexemeType.RIGHT_META
  ⟨[lx], l2, some LText⟩

/-- One round of `lex_text`'s loop (lines 475-490): at `{{` flush pending
text and go to `lex_left_meta`; a stray `}}` is an error; at EOF flush
pending text and emit `EOF`; otherwise consume one byte. -/
def lexTextState (l : Lexer) : LexStep :=
  if lexLooksAt l (Char.ofNat 123 :: Char.ofNat 123 :: []) then
    if l.start < l.pos then
      let (lx, l1) := lexEmit l LexemeType.TEXT
      ⟨[lx], l1, some LLeftMeta⟩
    else ⟨[], l, some LLeftMeta⟩
  else if lexLooksAt l (Char.ofNat 125 :: Char.ofNat 125 :: []) then
    lexError l "unexpected action close sequence"
  else
    match lexNextChar l with
    | (some _, l1) => ⟨[], l1, some LText⟩
    | (none, l1) =>
      if l1.start < l1.pos then
        let (lx, l2) := lexEmit l1 LexemeType.TEXT
        let (le, l3) := lexEmit l2 LexemeType.EOF
        ⟨[lx, le], l3, none⟩
      else
        let (le, l2) := lexEmit l1 LexemeType.EOF
        ⟨[le], l2, none⟩

/-- One of the lexer's spaces-then-identifier states, `lex_partial`
(lines 353-372), which scans the file name of a `{{> name}}` inclusion. -/
def lexIncludeNameState (l : Lexer) : LexStep :=
  match lexNextChar l with
  | (none, l1) => lexError l1 "unexpected EOF while scanning action"
  | (some c, l1) =>
    if c = Char.ofNat 10 then lexError l1 "actions cannot span multiple lines"
    else if isSpaceC c then ⟨[], lexIgnore l1, some LIncludeName⟩
    else if isident c then ⟨[], lexBackup l1, some LIdentifier⟩
    else lexError l1 "unexpected character"

/-- Dispatch one lexer state step. -/
def lexStepOf : LexState → Lexer → LexStep
  | LText, l => lexTextState l
  | LLeftMeta, l => lexLeftMetaState l
  | LRightMeta, l => lexRightMetaState l
  | LInsideAction, l => lexInsideActionState l
  | LIdentifier, l => lexIdentifierState l
  | LQuotedIdentifier, l => lexQuotedIdentifierState l
  | LIncludeName, l => lexIncludeNameState l
  | LComment, l => lexCommentState l

/-- Drive the lexer to completion (`lex_next`, run eagerly).  Fuel bounds
the number of state steps; on exhaustion an ERROR lexeme is produced so
that compilation fails, mirroring a non-terminating parse being an error.
(The only inputs needing unbounded steps are pathological identifier-
at-EOF inputs on which the C parser also aborts with an error.) -/
def lexAll : Nat → LexState → Lexer → List Lexeme
  | 0, _, _ => [⟨LexemeType.ERROR, ("lexer did not terminate").toList⟩]
  | fuel + 1, st, l =>
    let s := lexStepOf st l
    match s.next with
    | none => s.emitted
    | some st2 => s.emitted ++ lexAll fuel st2 s.lexer

/-- `lex_init` + the whole lexeme stream of an input. -/
def lexemeStream (input : Str) : List Lexeme :=
  lexAll (4 * input.length + 64) LText ⟨input, 0, 0⟩

/-! ### Symbol table (lines 112-115, 183-255)

A stack of scopes; each scope is the descriptor set of one level (the C
stores it in a string hash with unique keys; we keep the list and return
the first match).  The descriptor heap resolves `list_desc` pointers. -/

abbrev Scope := List VarDescriptor

abbrev DescHeap := Nat → List VarDescriptor

/-- Lookup in one scope (`hash_find` by name). -/
def scopeFind (sc : Scope) (name : Str) : Option VarDescriptor :=
  sc.find? (fun d => d.name == name)

/-- `symtab_lookup` (lines 183-193): innermost scope first. -/
def symtab_lookup : List Scope → Str → Option VarDescriptor
  | [], _ => none
  | sc :: rest, name =>
    match scopeFind sc name with
    | some d => some d
    | none => symtab_lookup rest name

/-! ### Parser (lines 134-148, 530-864) -/

/-- `struct parser` (minus the lexer, which we run eagerly): the symbol
table, the active flags, the open-tag stack (`struct stacked_lexeme`
list, top first), the chunk array being built, and the template's
`minimum_size` accumulator. -/
structure Parser where
  descriptor : List VarDescriptor
  symtab : List Scope
  flags : Flags
  stack : List Lexeme
  chunks : List Chunk
  minimum_size : Nat
deriving DecidableEq, Repr

/-- `symtab_push` (lines 207-244): fails with ENODEV on a NULL
`list_desc`; otherwise pushes the pointed-to descriptor set as a new
scope. -/
def symtab_push (heap : DescHeap) (p : Parser) (ld : Option Nat) :
    Option Parser :=
  match ld with
  | none => none
  | some h => some { p with symtab := heap h :: p.symtab }

/-- `symtab_pop` (lines 246-255). -/
def symtab_pop (p : Parser) : Parser := { p with symtab := p.symtab.tail }

/-- `symtab_lookup_lexeme` (lines 195-205): identifiers longer than
`LEXEME_MAX_LEN` (64) are rejected before lookup. -/
def symtab_lookup_lexeme (p : Parser) (lx : Lexeme) : Option VarDescriptor :=
  if 64 < lx.value.length then none
  else symtab_lookup p.symtab lx.value

/-- `emit_chunk` (lines 540-554). -/
def emit_chunk (p : Parser) (a : Action) (f : Flags) (d : ChunkData) :
    Parser :=
  { p with chunks := p.chunks ++ [⟨a, d, f⟩] }

/-- `parser_stack_top_matches` (lines 556-584): the stack must be
nonempty and its top must have the given type and byte-identical value;
on success the top is popped. -/
def parser_stack_top_matches (p : Parser) (lx : Lexeme) (t : LexemeType) :
    Option Parser :=
  match p.stack with
  | [] => none
  | top :: rest =>
    if top.type = t && top.value == lx.value then
      some { p with stack := rest }
    else none

/-- The identifiers of the parser state functions that are returned as
values (states invoked directly on the current lexeme are plain calls). -/
inductive PState where
  | PText
  | PMeta
  | PIter
  | PNegate
  | PSlash
  | PInclude
  | PRightMeta
deriving DecidableEq, Repr

open PState

/-- The result of one parser state invocation: the updated parser, the
lexemes not yet consumed, the next state (`none` terminates the parse
loop), and the value of the C `lexeme` variable afterwards (states
replace it with an ERROR lexeme via `error_lexeme`, or with a pulled
lexeme via `unexpected_lexeme_or_lex_error`). -/
structure PStep where
  p : Parser
  rest : List Lexeme
  next : Option PState
  lastLexeme : Lexeme

/-- `error_lexeme` (lines 315-324): overwrite the current lexeme with an
ERROR carrying the message and return the NULL state. -/
def parserError (p : Parser) (rest : List Lexeme) (msg : String) : PStep :=
  ⟨p, rest, none, ⟨LexemeType.ERROR, msg.toList⟩⟩

/-- `unexpected_lexeme` (lines 511-516). -/
def parserUnexpected (p : Parser) (rest : List Lexeme) (lx : Lexeme) : PStep :=
  parserError p rest ("unexpected lexeme " ++ String.mk lx.value)

/-- `unexpected_lexeme_or_lex_error` (lines 518-528): if the pulled
lexeme is an ERROR or EOF it becomes the current lexeme and parsing
stops; otherwise the current lexeme is reported as unexpected. -/
def parserUnexpectedOr (p : Parser) (rest : List Lexeme) (lx nx : Lexeme) :
    PStep :=
  if nx.type = LexemeType.ERROR || nx.type = LexemeType.EOF then
    ⟨p, rest, none, nx⟩
  else parserUnexpected p rest lx

/-- The reverse scan of `parser_end_iter` (lines 608-619): the index of
the most recent `START_ITER` chunk whose `data` is the given descriptor
(pointer identity, modelled by `uid`). -/
def findStartIterRev (cs : List Chunk) (sym : VarDescriptor) : Option Nat :=
  (List.range cs.length).reverse.find? (fun i =>
    match cs[i]? with
    | some c =>
      c.action = ACTION_START_ITER &&
        (match c.data with
         | dVar d => d.uid == sym.uid
         | _ => false)
    | none => false)

/-- The reverse scan of `parser_end_var_not_empty` (lines 645-652). -/
def findIfVarRev (cs : List Chunk) (sym : VarDescriptor) : Option Nat :=
  (List.range cs.length).reverse.find? (fun i =>
    match cs[i]? with
    | some c =>
      c.action = ACTION_IF_VARIABLE_NOT_EMPTY &&
        (match c.data with
         | dVar d => d.uid == sym.uid
         | _ => false)
    | none => false)

/-- `parser_end_iter` (lines 594-623): called by `parser_slash` after the
closing `}}` has already been consumed.  Pops the matching open tag,
resolves the identifier, finds the opening `START_ITER` chunk, emits
`END_ITER` carrying that chunk's index, and pops the symbol scope. -/
def parser_end_iter (p : Parser) (lx : Lexeme) (rest : List Lexeme) : PStep :=
  match parser_stack_top_matches p lx LexemeType.IDENTIFIER with
  | none => parserError p rest "mismatched closing tag"
  | some p1 =>
    match symtab_lookup_lexeme p1 lx with
    | none => parserError p1 rest ("Unknown variable " ++ String.mk lx.value)
    | some symbol =>
      match findStartIterRev p1.chunks symbol with
      | some idx =>
        let p2 := emit_chunk p1 ACTION_END_ITER Flags.zero (dIndex idx)
        ⟨symtab_pop p2, rest, some PText, lx⟩
      | none =>
        parserError p1 rest ("could not find open iter " ++ String.mk lx.value)

/-- `parser_end_var_not_empty` (lines 625-656): pops the matching open
tag, resolves the identifier, requires at least one emitted chunk and an
open `IF_VARIABLE_NOT_EMPTY` on the same descriptor, then emits
`END_IF_VARIABLE_NOT_EMPTY` carrying the descriptor. -/
def parser_end_var_not_empty (p : Parser) (lx : Lexeme) (rest : List Lexeme) :
    PStep :=
  match parser_stack_top_matches p lx LexemeType.IDENTIFIER with
  | none => parserError p rest "mismatched closing tag"
  | some p1 =>
    match symtab_lookup_lexeme p1 lx with
    | none => parserError p1 rest ("Unknown variable " ++ String.mk lx.value)
    | some symbol =>
      if p1.chunks.isEmpty then
        parserError p1 rest "no chunks emitted before end variable not empty"
      else
        match findIfVarRev p1.chunks symbol with
        | some _ =>
          let p2 := emit_chunk p1 ACTION_END_IF_VARIABLE_NOT_EMPTY Flags.zero
            (dVar symbol)
          ⟨p2, rest, some PRightMeta, lx⟩
        | none =>
          parserError p1 rest ("could not find open cond " ++ String.mk lx.value)

/-- `parser_slash` (lines 658-676): after `{{/`, pull the lexeme after
the identifier to decide between closing an iteration (`}}`) and closing
a conditional (`?`). -/
def parser_slash (p : Parser) (lx : Lexeme) (rest : List Lexeme) : PStep :=
  if lx.type = LexemeType.IDENTIFIER then
    match rest with
    | [] => parserUnexpected p rest lx
    | nx :: rest1 =>
      if nx.type = LexemeType.RIGHT_META then parser_end_iter p lx rest1
      else if nx.type = LexemeType.QUESTION_MARK then
        parser_end_var_not_empty p lx rest1
      else parserUnexpectedOr p rest1 lx nx
  else parserUnexpected p rest lx

/-- `parser_iter` (lines 678-708): resolve the identifier, push the
scope named by its `list_desc` (ENODEV if NULL), emit `START_ITER` with
`NO_FREE` plus the pending NEGATE bit, push the open tag, clear NEGATE. -/
def parser_iter (heap : DescHeap) (p : Parser) (lx : Lexeme)
    (rest : List Lexeme) : PStep :=
  if lx.type = LexemeType.IDENTIFIER then
    let negate := p.flags.negate
    match symtab_lookup_lexeme p lx with
    | none => parserError p rest ("Unknown variable " ++ String.mk lx.value)
    | some symbol =>
      match symtab_push heap p symbol.list_desc with
      | none =>
        parserError p rest
          ("could not find descriptor for variable " ++ String.mk lx.value)
      | some p1 =>
        let p2 := emit_chunk p1 ACTION_START_ITER ⟨negate, false, true⟩
          (dVar symbol)
        let p3 := { p2 with stack := lx :: p2.stack,
                            flags := { p2.flags with negate := false } }
        ⟨p3, rest, some PRightMeta, lx⟩
  else parserUnexpected p rest lx

/-- `parser_identifier` (lines 726-776): pull the next lexeme (after an
optional quoted-identifier closing brace); `}}` emits a `VARIABLE` chunk
with the current flags, `?` emits an `IF_VARIABLE_NOT_EMPTY` chunk and
pushes the open tag. -/
def parser_identifier (p : Parser) (lx : Lexeme) (rest : List Lexeme) :
    PStep :=
  match rest with
  | [] => ⟨p, rest, none, lx⟩
  | nx0 :: rest0 =>
    let quoted := p.flags.quote
    if quoted && !(nx0.type = LexemeType.CLOSE_CURLY_BRACE) then
      parserError p rest0 "expecting closing brace"
    else
      match (if quoted then rest0 else nx0 :: rest0) with
      | [] => parserUnexpected p [] lx
      | nx :: rest1 =>
        if nx.type = LexemeType.RIGHT_META then
          match symtab_lookup_lexeme p lx with
          | none =>
            parserError p rest1 ("Unknown variable " ++ String.mk lx.value)
          | some symbol =>
            let p1 := emit_chunk p ACTION_VARIABLE p.flags (dVar symbol)
            let p2 := { p1 with
              flags := { p1.flags with quote := false },
              minimum_size := p1.minimum_size + lx.value.length + 1 }
            ⟨p2, rest1, some PText, lx⟩
        else if nx.type = LexemeType.QUESTION_MARK then
          match symtab_lookup_lexeme p lx with
          | none =>
            parserError p rest1 ("Unknown variable " ++ String.mk lx.value)
          | some symbol =>
            let p1 := emit_chunk p ACTION_IF_VARIABLE_NOT_EMPTY
              ⟨p.flags.negate, false, true⟩ (dVar symbol)
            let p2 := { p1 with stack := lx :: p1.stack,
                                flags := { p1.flags with negate := false } }
            ⟨p2, rest1, some PRightMeta, lx⟩
        else parserUnexpectedOr p rest1 lx nx


/-- `parser_negate` (lines 710-724): `^` flips the NEGATE flag before an
iteration or an identifier. -/
def parser_negate (p : Parser) (lx : Lexeme) (rest : List Lexeme) : PStep :=
  match lx.type with
  | LexemeType.HASH =>
    let p1 := { p with flags := { p.flags with negate := !p.flags.negate } }
    ⟨p1, rest, some PIter, lx⟩
  | LexemeType.IDENTIFIER =>
    let p1 := { p with flags := { p.flags with negate := !p.flags.negate } }
    parser_identifier p1 lx rest
  | _ => parserUnexpected p rest lx

/-- `parser_partial` (lines 778-793).
    Modelled from the spec: `lwan_tpl_compile_file` memory-maps the named
    file (filesystem access is outside the embedding); we model an empty
    filesystem, on which every inclusion fails to load and the parser
    reports "Could not compile template". -/
def parserInclude (p : Parser) (lx : Lexeme) (rest : List Lexeme) : PStep :=
  if lx.type = LexemeType.IDENTIFIER then
    parserError p rest ("Could not compile template " ++ String.mk lx.value)
  else parserUnexpected p rest lx

/-- `parser_meta` (lines 795-823). -/
def parser_meta (p : Parser) (lx : Lexeme) (rest : List Lexeme) : PStep :=
  match lx.type with
  | LexemeType.OPEN_CURLY_BRACE =>
    if p.flags.quote then parserUnexpected p rest lx
    else
      ⟨{ p with flags := { p.flags with quote := true } }, rest, some PMeta, lx⟩
  | LexemeType.IDENTIFIER => parser_identifier p lx rest
  | LexemeType.GREATER_THAN => ⟨p, rest, some PInclude, lx⟩
  | LexemeType.HASH => ⟨p, rest, some PIter, lx⟩
  | LexemeType.HAT => ⟨p, rest, some PNegate, lx⟩
  | LexemeType.SLASH => ⟨p, rest, some PSlash, lx⟩
  | _ => parserUnexpected p rest lx

/-- `parser_right_meta` (lines 586-592). -/
def parser_right_meta (p : Parser) (lx : Lexeme) (rest : List Lexeme) :
    PStep :=
  if lx.type = LexemeType.RIGHT_META then ⟨p, rest, some PText, lx⟩
  else parserUnexpected p rest lx

/-- `parser_text` (lines 838-864): flush text as `APPEND_CHAR` (length 1)
or `APPEND` chunks, bump `minimum_size`, emit `LAST` on EOF. -/
def parser_text (p : Parser) (lx : Lexeme) (rest : List Lexeme) : PStep :=
  match lx.type with
  | LexemeType.LEFT_META => ⟨p, rest, some PMeta, lx⟩
  | LexemeType.TEXT =>
    match lx.value with
    | [c] =>
      let p1 := emit_chunk p ACTION_APPEND_CHAR Flags.zero (dChar c)
      ⟨{ p1 with minimum_size := p1.minimum_size + 1 }, rest, some PText, lx⟩
    | v =>
      let p1 := emit_chunk p ACTION_APPEND Flags.zero (dStrbuf v)
      ⟨{ p1 with minimum_size := p1.minimum_size + v.length },
        rest, some PText, lx⟩
  | LexemeType.EOF =>
    ⟨emit_chunk p ACTION_LAST Flags.zero dNull, rest, none, lx⟩
  | _ => parserUnexpected p rest lx

/-- Dispatch one parser state. -/
def parserStepOf (heap : DescHeap) :
    PState → Parser → Lexeme → List Lexeme → PStep
  | PText, p, lx, rest => parser_text p lx rest
  | PMeta, p, lx, rest => parser_meta p lx rest
  | PIter, p, lx, rest => parser_iter heap p lx rest
  | PNegate, p, lx, rest => parser_negate p lx rest
  | PSlash, p, lx, rest => parser_slash p lx rest
  | PInclude, p, lx, rest => parserInclude p lx rest
  | PRightMeta, p, lx, rest => parser_right_meta p lx rest

/-- The parse loop of `parse_string` (lines 1155-1157):
`while (state && lex_next(...) && lexeme->type != LEXEME_ERROR)
   state = state(parser, lexeme);`
returning the parser and the final value of `lexeme` for
`parser_shutdown`.  Fuel bounds the loop; each round consumes at least
one lexeme, so `length + 1` is always enough. -/
def parserRun (heap : DescHeap) :
    Nat → PState → Parser → List Lexeme → Lexeme → Parser × Lexeme
  | 0, _, p, _, _ => (p, ⟨LexemeType.ERROR, ("parser did not terminate").toList⟩)
  | fuel + 1, st, p, stream, prev =>
    match stream with
    | [] => (p, prev)
    | lx :: rest =>
      if lx.type = LexemeType.ERROR then (p, lx)
      else
        let s := parserStepOf heap st p lx rest
        match s.next with
        | none => (s.p, s.lastLexeme)
        | some st2 => parserRun heap fuel st2 s.p s.rest s.lastLexeme

/-! ### Post-processing linker (lines 984-1071) -/

/-- The pointer-identity comparison `chunk->data == prev_chunk->data` on
two descriptor-carrying `data` slots. -/
def dataPtrEq (a b : ChunkData) : Bool :=
  match a, b with
  | dVar x, dVar y => x.uid == y.uid
  | _, _ => false

/-- The forward scan for an `IF_VARIABLE_NOT_EMPTY` chunk (lines
991-999): first chunk at or after `j` that is an
`END_IF_VARIABLE_NOT_EMPTY` whose `data` equals the open chunk's;
reaching `LAST` (or the end of the array) is a failure. -/
def scanEndVar (cs : List Chunk) (d : ChunkData) : Nat → Nat → Option Nat
  | 0, _ => none
  | fuel + 1, j =>
    match cs[j]? with
    | none => none
    | some c =>
      if c.action = ACTION_LAST then none
      else if c.action = ACTION_END_IF_VARIABLE_NOT_EMPTY &&
          dataPtrEq c.data d then some j
      else scanEndVar cs d fuel (j + 1)

/-- The forward scan for a `START_ITER` chunk (lines 1014-1030): first
chunk at or after `j` that is an `END_ITER` whose stored index equals the
open chunk's index; reaching `LAST` is a failure. -/
def scanEndIter (cs : List Chunk) (prevIdx : Nat) : Nat → Nat → Option Nat
  | 0, _ => none
  | fuel + 1, j =>
    match cs[j]? with
    | none => none
    | some c =>
      if c.action = ACTION_LAST then none
      else if c.action = ACTION_END_ITER &&
          (match c.data with
           | dIndex n => n == prevIdx
           | _ => false) then some j
      else scanEndIter cs prevIdx fuel (j + 1)

/-- `post_process_template` (lines 984-1071).
The walk visits chunk indices in order.
Modelled from the spec: `LWAN_ARRAY_FOREACH` (`lwan-array.h`, not under
`src/`) iterates a pointer from the first element to the last, with the
increment running after each body execution — so after a branch that
resets the cursor to `prev_chunk + 1`, the next visited index is
`prev_chunk + 2`.
* `IF_VARIABLE_NOT_EMPTY`: find the matching close, replace `data` with
  the `(descriptor, end chunk)` record, clear `NO_FREE`;
* `START_ITER`: find the `END_ITER` carrying this chunk's index, or the
  open chunk's flags into it and point its `data` back at the open chunk,
  then store `(descriptor, chunk after the end)` in the open chunk
  (`cd->chunk = chunk` only in the dead `ACTION_LAST` arm) and clear
  `NO_FREE`;
* `VARIABLE`: specialize string variables to `VARIABLE_STR` /
  `VARIABLE_STR_ESCAPE` with a plain offset payload; a quoted non-string
  variable or a NULL appender is an error;
* `LAST`: stop. -/
def postProcess (cs : List Chunk) : Nat → Nat → Option (List Chunk)
  | 0, _ => none
  | fuel + 1, i =>
    match cs[i]? with
    | none => some cs
    | some c =>
      match c.action with
      | ACTION_IF_VARIABLE_NOT_EMPTY =>
        (match c.data with
         | dVar sym =>
           (match scanEndVar cs c.data (cs.length + 1) i with
            | none => none
            | some j =>
              let cs2 := cs.set i
                ⟨ACTION_IF_VARIABLE_NOT_EMPTY, dChunkDesc sym j,
                  { c.flags with no_free := false }⟩
              postProcess cs2 fuel (i + 2))
         | _ => none)
      | ACTION_START_ITER =>
        (match c.data with
         | dVar sym =>
           (match scanEndIter cs i (cs.length + 1) i with
            | none => none
            | some j =>
              match cs[j]? with
              | none => none
              | some ec =>
                let cs2 := cs.set j
                  ⟨ACTION_END_ITER, dChunkPtr i, Flags.union ec.flags c.flags⟩
                let cdChunk := if ec.action = ACTION_LAST then j else j + 1
                let cs3 := cs2.set i
                  ⟨ACTION_START_ITER, dChunkDesc sym cdChunk,
                    { c.flags with no_free := false }⟩
                postProcess cs3 fuel (i + 2))
         | _ => none)
      | ACTION_VARIABLE =>
        (match c.data with
         | dVar d =>
           let escape := c.flags.quote
           if d.append_to_strbuf = some AppendKind.aStr then
             let act := if escape then ACTION_VARIABLE_STR_ESCAPE
               else ACTION_VARIABLE_STR
             postProcess (cs.set i ⟨act, dOffset d.offset, c.flags⟩)
               fuel (i + 1)
           else if escape then none
           else if d.append_to_strbuf = none then none
           else postProcess cs fuel (i + 1)
         | _ => none)
      | ACTION_LAST => some cs
      | _ => postProcess cs fuel (i + 1)

/-! ### Compilation entry points (lines 1073-1160, 1262-1289) -/

/-- `parser_init` (lines 1073-1087): push the root descriptor set as the
first scope (the root `symtab_push` receives the caller's set directly,
not through `list_desc`). -/
def parser_init (descs : List VarDescriptor) : Parser :=
  ⟨descs, [descs], Flags.zero, [], [], 0⟩

/-- Run the lexer and the parse loop, returning the parser and the final
lexeme exactly as they reach `parser_shutdown`. -/
def parseToShutdown (heap : DescHeap) (input : Str)
    (descs : List VarDescriptor) : Parser × Lexeme :=
  let stream := lexemeStream input
  parserRun heap (stream.length + 1) PText (parser_init descs) stream
    ⟨LexemeType.EOF, []⟩

/-- `parser_shutdown` (lines 1089-1136): an ERROR lexeme, a nonempty open
-tag stack, a nonempty symbol table after popping the root scope, or a
pending NEGATE/QUOTE flag each force failure; on success the chunks are
post-processed. -/
def parser_shutdown (p : Parser) (lx : Lexeme) : Option (List Chunk) :=
  let success := !(lx.type = LexemeType.ERROR) && p.stack.isEmpty &&
    (symtab_pop p).symtab.isEmpty && !p.flags.negate && !p.flags.quote
  if success then postProcess p.chunks (p.chunks.length + 1) 0
  else none

/-- `lwan_tpl_compile_string_full` (lines 1262-1282): parse, link and
build the template.  (The `LWAN_TPL_FLAG_CONST_TEMPLATE` flag only
changes buffer ownership, which the embedding does not track.) -/
def lwan_tpl_compile_string_full (heap : DescHeap) (input : Str)
    (descs : List VarDescriptor) : Option LwanTpl :=
  let (p, lx) := parseToShutdown heap input descs
  match parser_shutdown p lx with
  | some cs => some ⟨cs, p.minimum_size⟩
  | none => none

/-- `lwan_tpl_compile_string` (lines 1284-1289). -/
def lwan_tpl_compile_string (heap : DescHeap) (input : Str)
    (descs : List VarDescriptor) : Option LwanTpl :=
  lwan_tpl_compile_string_full heap input descs

/-- The open-tag stack as it reaches `parser_shutdown`: the identifiers
of the `#`/`?`/`^` opens still pending at end of input. -/
def stackAtShutdown (heap : DescHeap) (input : Str)
    (descs : List VarDescriptor) : List Lexeme :=
  (parseToShutdown heap input descs).1.stack

/-! ### Interpreter (lines 1322-1493)

`apply` walks the chunk program appending to the output buffer.  Its
`data` argument is the sentinel chunk pointer (here: chunk index) used by
`END_IF_VARIABLE_NOT_EMPTY` (compared against the current chunk) and
`END_ITER` (compared against the stored back-pointer); `coro` is the
per-frame generator, modelled as the list of record states the
generator has yet to yield.  Environments interpret the caller-supplied
function tags. -/

/-- A generator environment: tag ↦ the successive record states the
coroutine yields on each resume (`coro_resume_value` returns truthy while
this list is nonempty). -/
abbrev GenEnv := Nat → Record → List Record

/-- An appender environment for `aOther` tags: the bytes the caller's
`append_to_strbuf` writes for a given field value. -/
abbrev AppendEnv := Nat → Value → Str

/-- An emptiness environment for `eOther` tags. -/
abbrev EmptyEnv := Nat → Value → Bool

/-- The string field stored at an offset: `*(char **)(variables + off)`.
Reading memory of another shape as a `char *` is undefined; it is
modelled as a NULL string. -/
def strFieldAt (vars : Record) (off : Nat) : Option Str :=
  match vars off with
  | Value.vStr s => s
  | _ => none

/-- The int field stored at an offset (undefined shapes read as 0). -/
def intFieldAt (vars : Record) (off : Nat) : Int :=
  match vars off with
  | Value.vInt i => i
  | _ => 0

/-- `descriptor->append_to_strbuf(buf, variables + offset)` for the
`ACTION_VARIABLE` dispatch. -/
def appendDispatch (aenv : AppendEnv) (k : AppendKind) (vars : Record)
    (off : Nat) : Str :=
  match k with
  | AppendKind.aStr => lwan_append_str_to_strbuf (some (strFieldAt vars off))
  | AppendKind.aInt => lwan_append_int_to_strbuf (intFieldAt vars off)
  | AppendKind.aOther id => aenv id (vars off)

/-- `cd->descriptor->get_is_empty(variables + offset)`. -/
def emptyDispatch (eenv : EmptyEnv) (k : EmptyKind) (vars : Record)
    (off : Nat) : Bool :=
  match k with
  | EmptyKind.eStr => lwan_tpl_str_is_empty (some (strFieldAt vars off))
  | EmptyKind.eInt => lwan_tpl_int_is_empty (intFieldAt vars off)
  | EmptyKind.eOther id => eenv id (vars off)

/-- The state a frame of `apply` finishes in: the output buffer, the
chunk index at which `finalize` ran (the C return value), and the record
(the C mutates it in place through generator resumes). -/
structure ApplyOut where
  buf : Str
  retIdx : Nat
  vars : Record

/-- `apply` (lines 1322-1465).  One recursive call per dispatch; `fuel`
bounds the total number of dispatches (the C loops genuinely forever on
programs its own compiler never produces).  `none` models undefined
behaviour (mis-shaped chunk payload, NULL generator, running off the
chunk array) or fuel exhaustion. -/
def applyRec (prog : List Chunk) (genv : GenEnv) (aenv : AppendEnv)
    (eenv : EmptyEnv) :
    Nat → Nat → Record → Option Nat → Option (List Record) → Str →
    Option ApplyOut
  | 0, _, _, _, _, _ => none
  | fuel + 1, idx, vars, sent, coro, buf =>
    match prog[idx]? with
    | none => none
    | some ch =>
      match ch.action with
      | ACTION_APPEND =>
        (match ch.data with
         | dStrbuf s => applyRec prog genv aenv eenv fuel (idx + 1) vars sent
             coro (buf ++ s)
         | _ => none)
      | ACTION_APPEND_CHAR =>
        (match ch.data with
         | dChar c => applyRec prog genv aenv eenv fuel (idx + 1) vars sent
             coro (buf ++ [c])
         | _ => none)
      | ACTION_VARIABLE =>
        (match ch.data with
         | dVar d =>
           (match d.append_to_strbuf with
            | none => none
            | some k => applyRec prog genv aenv eenv fuel (idx + 1) vars sent
                coro (buf ++ appendDispatch aenv k vars d.offset))
         | _ => none)
      | ACTION_VARIABLE_STR =>
        (match ch.data with
         | dOffset o => applyRec prog genv aenv eenv fuel (idx + 1) vars sent
             coro (buf ++ lwan_append_str_to_strbuf (some (strFieldAt vars o)))
         | _ => none)
      | ACTION_VARIABLE_STR_ESCAPE =>
        (match ch.data with
         | dOffset o => applyRec prog genv aenv eenv fuel (idx + 1) vars sent
             coro
             (buf ++ lwan_append_str_escaped_to_strbuf (some (strFieldAt vars o)))
         | _ => none)
      | ACTION_IF_VARIABLE_NOT_EMPTY =>
        (match ch.data with
         | dChunkDesc d endIdx =>
           let empty0 := emptyDispatch eenv d.get_is_empty vars d.offset
           let empty := if ch.flags.negate then !empty0 else empty0
           if empty then
             applyRec prog genv aenv eenv fuel (endIdx + 1) vars sent coro buf
           else
             (match applyRec prog genv aenv eenv fuel (idx + 1) vars
                 (some endIdx) none buf with
              | none => none
              | some out => applyRec prog genv aenv eenv fuel (out.retIdx + 1)
                  out.vars sent coro out.buf)
         | _ => none)
      | ACTION_END_IF_VARIABLE_NOT_EMPTY =>
        if sent = some idx then some ⟨buf, idx, vars⟩
        else applyRec prog genv aenv eenv fuel (idx + 1) vars sent coro buf
      | ACTION_APPLY_TPL => none
      | ACTION_START_ITER =>
        if coro.isSome then
          applyRec prog genv aenv eenv fuel (idx + 1) vars sent coro buf
        else
          (match ch.data with
           | dChunkDesc d _ =>
             (match d.generator with
              | none => none
              | some g =>
                let yields := genv g vars
                let negate := ch.flags.negate
                let resumed0 := !yields.isEmpty
                let resumed := if negate then !resumed0 else resumed0
                if !resumed then
                  (match ch.data with
                   | dChunkDesc _ afterIdx =>
                     if negate then
                       applyRec prog genv aenv eenv fuel afterIdx vars sent
                         none buf
                     else
                       applyRec prog genv aenv eenv fuel (afterIdx + 1) vars
                         sent none buf
                   | _ => none)
                else
                  (match yields with
                   | [] =>
                     (match applyRec prog genv aenv eenv fuel (idx + 1) vars
                         (some idx) none buf with
                      | none => none
                      | some out => applyRec prog genv aenv eenv fuel
                          out.retIdx out.vars sent (some []) out.buf)
                   | v0 :: vrest =>
                     (match applyRec prog genv aenv eenv fuel (idx + 1) v0
                         (some idx) none buf with
                      | none => none
                      | some out => applyRec prog genv aenv eenv fuel
                          out.retIdx out.vars sent (some vrest) out.buf)))
           | _ => none)
      | ACTION_END_ITER =>
        let isSentinel : Bool :=
          match ch.data with
          | dChunkPtr k => sent == some k
          | _ => false
        if isSentinel then some ⟨buf, idx, vars⟩
        else
          (match coro with
           | none =>
             applyRec prog genv aenv eenv fuel (idx + 1) vars sent none buf
           | some [] =>
             applyRec prog genv aenv eenv fuel (idx + 1) vars sent none buf
           | some (v0 :: vrest) =>
             (match ch.data with
              | dChunkPtr k =>
                (match applyRec prog genv aenv eenv fuel (k + 1) v0 (some k)
                    none buf with
                 | none => none
                 | some out => applyRec prog genv aenv eenv fuel out.retIdx
                     out.vars sent (some vrest) out.buf)
              | _ => none))
      | ACTION_LAST => some ⟨buf, idx, vars⟩

/-- `lwan_tpl_apply_with_buffer` / `lwan_tpl_apply` (lines 1467-1493):
reset the buffer and run `apply` from the first chunk with a NULL
sentinel and no coroutine. -/
def lwan_tpl_apply (genv : GenEnv) (aenv : AppendEnv) (eenv : EmptyEnv)
    (fuel : Nat) (tpl : LwanTpl) (vars : Record) : Option Str :=
  match applyRec tpl.chunks genv aenv eenv fuel 0 vars none none [] with
  | none => none
  | some out => some out.buf

/-- Compile-and-render helper used by the concrete scenarios. -/
def renderOf (heap : DescHeap) (genv : GenEnv) (aenv : AppendEnv)
    (eenv : EmptyEnv) (fuel : Nat) (input : Str)
    (descs : List VarDescriptor) (vars : Record) : Option Str :=
  match lwan_tpl_compile_string heap input descs with
  | none => none
  | some tpl => lwan_tpl_apply genv aenv eenv fuel tpl vars

/-! ### Concrete descriptor sets, records and template sources used by the
claims (literal braces in template sources are written as hex escapes). -/

/-- An empty descriptor heap: no descriptor array lives at any address
except where a claim's set says otherwise (address 1 holds the empty item
set of the iteration variable). -/
def heap0 : DescHeap := fun _ => []

/-- A string variable `x` at offset 0 with the built-in string appender
and string emptiness predicate. -/
def xDesc : VarDescriptor :=
  ⟨['x'], 0, some AppendKind.aStr, EmptyKind.eStr, none, none, 1⟩

/-- A string variable `s` at offset 0. -/
def sDesc : VarDescriptor :=
  ⟨['s'], 0, some AppendKind.aStr, EmptyKind.eStr, none, none, 2⟩

/-- An iterable variable `items` whose generator tag is 0 and whose
`list_desc` points at the empty descriptor array at heap address 1. -/
def itemsDesc : VarDescriptor :=
  ⟨("items").toList, 0, none, EmptyKind.eOther 0, some 0, some 1, 3⟩

/-- A descriptor whose 64-byte name is all `a`s. -/
def aDesc64 : VarDescriptor :=
  ⟨List.replicate 64 'a', 0, some AppendKind.aStr, EmptyKind.eStr, none,
    none, 4⟩

/-- A descriptor whose 65-byte name is all `a`s. -/
def aDesc65 : VarDescriptor :=
  ⟨List.replicate 65 'a', 0, some AppendKind.aStr, EmptyKind.eStr, none,
    none, 5⟩

/-- The generator environment in which every generator yields nothing
(generator tag 0 is an empty sequence). -/
def genvDefault : GenEnv := fun _ _ => []

def aenvDefault : AppendEnv := fun _ _ => []

def eenvDefault : EmptyEnv := fun _ _ => true

/-- A record whose every field is the given string. -/
def recOfStr (s : Option Str) : Record := fun _ => Value.vStr s

/-- A record with no meaningful fields. -/
def recRaw : Record := fun _ => Value.vRaw 0

/-- `{{#items}}X{{/items}}Y`. -/
def srcIterY : Str := ("\x7b\x7b#items\x7d\x7dX\x7b\x7b/items\x7d\x7dY").toList

/-- `{{x?}}{{x?}}A{{/x?}}{{/x?}}` — two nested conditionals on the same
variable. -/
def srcNestedIf : Str :=
  ("\x7b\x7bx?\x7d\x7d\x7b\x7bx?\x7d\x7dA\x7b\x7b/x?\x7d\x7d\x7b\x7b/x?\x7d\x7d").toList

/-- `{{{s}}}`. -/
def srcTripleS : Str := ("\x7b\x7b\x7bs\x7d\x7d\x7d").toList

/-- `{{{s}}}Y`. -/
def srcTripleSY : Str := ("\x7b\x7b\x7bs\x7d\x7d\x7dY").toList

/-- `{{x?}}X{{/x?}}Y`. -/
def srcCondY : Str := ("\x7b\x7bx?\x7d\x7dX\x7b\x7b/x?\x7d\x7dY").toList

/-- `{{unknown}}` — no open tags at all. -/
def srcUnknown : Str := ("\x7b\x7bunknown\x7d\x7d").toList

/-- `{{#items}}` — an open tag left unmatched at end of input. -/
def srcOpenIter : Str := ("\x7b\x7b#items\x7d\x7d").toList

/-- `{{` + 64 `a`s + `}}`. -/
def srcIdent64 : Str :=
  ("\x7b\x7b").toList ++ List.replicate 64 'a' ++ ("\x7d\x7d").toList

/-- `{{` + 65 `a`s + `}}`. -/
def srcIdent65 : Str :=
  ("\x7b\x7b").toList ++ List.replicate 65 'a' ++ ("\x7d\x7d").toList

/-- The chunk at index `i` of a compilation result. -/
def chunkAt (t : Option LwanTpl) (i : Nat) : Option Chunk :=
  t.bind (fun tpl => tpl.chunks[i]?)

/-- The chunk program the parser emits for `{{x?}}{{x?}}A{{/x?}}{{/x?}}`
(two nested conditionals on the same descriptor), before post-processing. -/
def nestedIfPre : List Chunk :=
  [⟨ACTION_IF_VARIABLE_NOT_EMPTY, dVar xDesc, ⟨false, false, true⟩⟩,
   ⟨ACTION_IF_VARIABLE_NOT_EMPTY, dVar xDesc, ⟨false, false, true⟩⟩,
   ⟨ACTION_APPEND_CHAR, dChar 'A', Flags.zero⟩,
   ⟨ACTION_END_IF_VARIABLE_NOT_EMPTY, dVar xDesc, Flags.zero⟩,
   ⟨ACTION_END_IF_VARIABLE_NOT_EMPTY, dVar xDesc, Flags.zero⟩,
   ⟨ACTION_LAST, dNull, Flags.zero⟩]

/-- The same program after post-processing: the outer open linked to the
inner close (index 3), the inner open untouched. -/
def nestedIfPost : List Chunk :=
  [⟨ACTION_IF_VARIABLE_NOT_EMPTY, dChunkDesc xDesc 3, Flags.zero⟩,
   ⟨ACTION_IF_VARIABLE_NOT_EMPTY, dVar xDesc, ⟨false, false, true⟩⟩,
   ⟨ACTION_APPEND_CHAR, dChar 'A', Flags.zero⟩,
   ⟨ACTION_END_IF_VARIABLE_NOT_EMPTY, dVar xDesc, Flags.zero⟩,
   ⟨ACTION_END_IF_VARIABLE_NOT_EMPTY, dVar xDesc, Flags.zero⟩,
   ⟨ACTION_LAST, dNull, Flags.zero⟩]

/-- The chunk program the parser emits for `{{#items}}X{{/items}}Y`,
before post-processing. -/
def iterPre : List Chunk :=
  [⟨ACTION_START_ITER, dVar itemsDesc, ⟨false, false, true⟩⟩,
   ⟨ACTION_APPEND_CHAR, dChar 'X', Flags.zero⟩,
   ⟨ACTION_END_ITER, dIndex 0, Flags.zero⟩,
   ⟨ACTION_APPEND_CHAR, dChar 'Y', Flags.zero⟩,
   ⟨ACTION_LAST, dNull, Flags.zero⟩]

/-- The same program after post-processing. -/
def iterPost : List Chunk :=
  [⟨ACTION_START_ITER, dChunkDesc itemsDesc 3, Flags.zero⟩,
   ⟨ACTION_APPEND_CHAR, dChar 'X', Flags.zero⟩,
   ⟨ACTION_END_ITER, dChunkPtr 0, ⟨false, false, true⟩⟩,
   ⟨ACTION_APPEND_CHAR, dChar 'Y', Flags.zero⟩,
   ⟨ACTION_LAST, dNull, Flags.zero⟩]

/-! ### Claim C1 -/

/-- C1: the claim says that on an empty (non-negated) iteration the
interpreter jumps past the loop to `end_chunk + 1` and rendering
continues with — and does not skip — the first chunk after the
`END_ITER`, so that `{{#items}}X{{/items}}Y` with an empty generator
renders `"Y"`.  Evaluating the embedded code at that input shows the
linker does store `end_chunk + 1` (chunk index 3, the `'Y'` chunk) in the
open chunk's record, but the `!resumed` path of `action_start_iter` sets
`chunk = cd->chunk` and then runs `DISPATCH_NEXT_ACTION()`, advancing
once more, so the `'Y'` chunk is skipped and the render yields `""`.
This contradicts the claim (and the spec's intent): the code has a bug on
this path — the negated path, by contrast, dispatches at `cd->chunk`
without the extra advance. -/
theorem emptyIterationSkipsChunkAfterLoop :
    chunkAt (lwan_tpl_compile_string heap0 srcIterY [itemsDesc]) 0 =
      some ⟨ACTION_START_ITER, dChunkDesc itemsDesc 3, Flags.zero⟩ ∧
    chunkAt (lwan_tpl_compile_string heap0 srcIterY [itemsDesc]) 3 =
      some ⟨ACTION_APPEND_CHAR, dChar 'Y', Flags.zero⟩ ∧
    renderOf heap0 genvDefault aenvDefault eenvDefault 32 srcIterY
      [itemsDesc] recRaw = some [] := by
  refine ⟨by decide, by decide, by decide⟩

/-! ### Claim C2 -/

/-- C2 counterexample: compiling `{{x?}}{{x?}}A{{/x?}}{{/x?}}` (two
conditionals on the same variable, nested) succeeds, but after
post-processing the outer `IF_VARIABLE_NOT_EMPTY` chunk (index 0) holds
the record `(x, 3)` — chunk 3 is the inner close — whereas its
stack-matching close is the `END_IF_VARIABLE_NOT_EMPTY` at index 4; and
the inner open chunk (index 1) still holds the raw descriptor with
`NO_FREE` set, because the walk resumes at `prev_chunk + 2` and never
visits it.  Both facts falsify the claim that every open chunk's data is
replaced by a record pairing it with its stack-matching close chunk. -/
theorem nestedSameDescriptorLinkingCounterexample :
    chunkAt (lwan_tpl_compile_string heap0 srcNestedIf [xDesc]) 0 =
      some ⟨ACTION_IF_VARIABLE_NOT_EMPTY, dChunkDesc xDesc 3, Flags.zero⟩ ∧
    chunkAt (lwan_tpl_compile_string heap0 srcNestedIf [xDesc]) 1 =
      some ⟨ACTION_IF_VARIABLE_NOT_EMPTY, dVar xDesc, ⟨false, false, true⟩⟩ ∧
    chunkAt (lwan_tpl_compile_string heap0 srcNestedIf [xDesc]) 4 =
      some ⟨ACTION_END_IF_VARIABLE_NOT_EMPTY, dVar xDesc, Flags.zero⟩ := by
  refine ⟨by decide, by decide, by decide⟩

/-- What a successful `scanEndVar` found: the first index at or after the
start holding an `END_IF_VARIABLE_NOT_EMPTY` whose data equals the given
one, every position passed over holding neither a match nor `LAST`. -/
theorem scanEndVar_spec (cs : List Chunk) (d : ChunkData) :
    ∀ (fuel j k : Nat), scanEndVar cs d fuel j = some k →
      j ≤ k ∧
      (∃ c, cs[k]? = some c ∧ c.action = ACTION_END_IF_VARIABLE_NOT_EMPTY ∧
        dataPtrEq c.data d = true) ∧
      (∀ m cm, j ≤ m → m < k → cs[m]? = some cm →
        cm.action ≠ ACTION_LAST ∧
        ¬(cm.action = ACTION_END_IF_VARIABLE_NOT_EMPTY ∧
          dataPtrEq cm.data d = true)) := by
  intro fuel
  induction fuel with
  | zero => intro j k h; simp [scanEndVar] at h
  | succ f ih =>
    intro j k h
    rw [scanEndVar] at h
    split at h
    · exact absurd h (by simp)
    · rename_i c hc
      split at h
      · exact absurd h (by simp)
      · rename_i hlast
        split at h
        · rename_i hcond
          obtain rfl : j = k := by simpa using h
          refine ⟨le_refl _, ⟨c, hc, ?_, ?_⟩, ?_⟩
          · exact of_decide_eq_true (Bool.and_elim_left hcond)
          · exact Bool.and_elim_right hcond
          · intro m cm h1 h2 _; omega
        · rename_i hcond
          obtain ⟨hle, hfound, hmin⟩ := ih (j + 1) k h
          refine ⟨by omega, hfound, ?_⟩
          intro m cm h1 h2 hcm
          rcases Nat.eq_or_lt_of_le h1 with rfl | hlt
          · have : cm = c := by
              rw [hc] at hcm; exact (Option.some.inj hcm).symm
            subst this
            constructor
            · exact hlast
            · intro ⟨ha, hb⟩
              exact hcond (by simp [ha, hb])
          · exact hmin m cm (by omega) h2 hcm

/-- What a successful `scanEndIter` found: the first index at or after the
start holding an `END_ITER` that stores exactly the opening chunk's index,
every position passed over holding neither a match nor `LAST`. -/
theorem scanEndIter_spec (cs : List Chunk) (prevIdx : Nat) :
    ∀ (fuel j k : Nat), scanEndIter cs prevIdx fuel j = some k →
      j ≤ k ∧
      (∃ c, cs[k]? = some c ∧ c.action = ACTION_END_ITER ∧
        c.data = dIndex prevIdx) ∧
      (∀ m cm, j ≤ m → m < k → cs[m]? = some cm →
        cm.action ≠ ACTION_LAST ∧
        ¬(cm.action = ACTION_END_ITER ∧ cm.data = dIndex prevIdx)) := by
  intro fuel
  induction fuel with
  | zero => intro j k h; simp [scanEndIter] at h
  | succ f ih =>
    intro j k h
    rw [scanEndIter] at h
    split at h
    · exact absurd h (by simp)
    · rename_i c hc
      split at h
      · exact absurd h (by simp)
      · rename_i hlast
        split at h
        · rename_i hcond
          obtain rfl : j = k := by simpa using h
          have hdata : c.data = dIndex prevIdx := by
            have h2 := Bool.and_elim_right hcond
            cases hd : c.data <;> rw [hd] at h2 <;> simp_all
          refine ⟨le_refl _,
            ⟨c, hc, of_decide_eq_true (Bool.and_elim_left hcond), hdata⟩, ?_⟩
          intro m cm h1 h2 _; omega
        · rename_i hcond
          obtain ⟨hle, hfound, hmin⟩ := ih (j + 1) k h
          refine ⟨by omega, hfound, ?_⟩
          intro m cm h1 h2 hcm
          rcases Nat.eq_or_lt_of_le h1 with rfl | hlt
          · have hcmc : cm = c := by
              rw [hc] at hcm; exact (Option.some.inj hcm).symm
            subst hcmc
            refine ⟨hlast, ?_⟩
            intro ⟨ha, hb⟩
            exact hcond (by simp [ha, hb])
          · exact hmin m cm (by omega) h2 hcm

/-- The walk of `post_process_template` never changes a chunk before its
cursor (its cursor only moves forward and its scans start at the
cursor). -/
theorem postProcess_preserves_before :
    ∀ (fuel : Nat) (cs : List Chunk) (i : Nat) (out : List Chunk),
      postProcess cs fuel i = some out → ∀ k, k < i → out[k]? = cs[k]? := by
  intro fuel
  induction fuel with
  | zero => intro cs i out h; simp [postProcess] at h
  | succ f ih =>
    intro cs i out h k hk
    rw [postProcess] at h
    split at h
    · obtain rfl : cs = out := Option.some.inj h
      rfl
    · rename_i c hc
      split at h
      · -- IF_VARIABLE_NOT_EMPTY
        split at h
        · rename_i sym hdata
          split at h
          · exact absurd h (by simp)
          · rename_i j hscan
            rw [ih _ _ _ h k (by omega)]
            exact List.getElem?_set_ne (by omega)
        · exact absurd h (by simp)
      · -- START_ITER
        split at h
        · rename_i sym hdata
          split at h
          · exact absurd h (by simp)
          · rename_i j hscan
            split at h
            · exact absurd h (by simp)
            · rename_i ec hec
              obtain ⟨hle, _, _⟩ :=
                scanEndIter_spec cs i (cs.length + 1) i j hscan
              rw [ih _ _ _ h k (by omega)]
              rw [List.getElem?_set_ne (by omega)]
              exact List.getElem?_set_ne (by omega)
        · exact absurd h (by simp)
      · -- VARIABLE
        split at h
        · rename_i d hdata
          split at h
          · rw [ih _ _ _ h k (by omega)]
            exact List.getElem?_set_ne (by omega)
          · split at h
            · exact absurd h (by simp)
            · dsimp only [] at h
              split at h
              · exact absurd h (by simp)
              · exact ih _ _ _ h k (by omega)
        · exact absurd h (by simp)
      · -- LAST
        obtain rfl : cs = out := Option.some.inj h
        rfl
      · -- every other action
        exact ih _ _ _ h k (by omega)

/-- Once an `END_ITER` chunk carries a back-pointer (`dChunkPtr`), the
rest of the walk leaves it untouched: later cursor positions only mutate
open chunks still carrying `dVar` data, `VARIABLE` chunks, and `END_ITER`
chunks still carrying a raw `dIndex`. -/
theorem postProcess_preserves_linked_end_iter :
    ∀ (fuel : Nat) (cs : List Chunk) (i : Nat) (out : List Chunk)
      (k m : Nat) (fl : Flags),
      postProcess cs fuel i = some out →
      cs[k]? = some ⟨ACTION_END_ITER, dChunkPtr m, fl⟩ →
      out[k]? = some ⟨ACTION_END_ITER, dChunkPtr m, fl⟩ := by
  intro fuel
  induction fuel with
  | zero => intro cs i out k m fl h; simp [postProcess] at h
  | succ f ih =>
    intro cs i out k m fl h hkc
    rw [postProcess] at h
    split at h
    · obtain rfl : cs = out := Option.some.inj h
      exact hkc
    · rename_i c hc
      split at h
      · -- IF_VARIABLE_NOT_EMPTY
        rename_i heq
        split at h
        · rename_i sym hdata
          split at h
          · exact absurd h (by simp)
          · rename_i j hscan
            have hik : i ≠ k := by
              intro hik
              subst hik
              rw [hc] at hkc
              obtain rfl := Option.some.inj hkc
              simp at heq
            refine ih _ _ _ _ _ _ h ?_
            rw [List.getElem?_set_ne hik]
            exact hkc
        · exact absurd h (by simp)
      · -- START_ITER
        rename_i heq
        split at h
        · rename_i sym hdata
          split at h
          · exact absurd h (by simp)
          · rename_i j hscan
            split at h
            · exact absurd h (by simp)
            · rename_i ec hec
              have hik : i ≠ k := by
                intro hik
                subst hik
                rw [hc] at hkc
                obtain rfl := Option.some.inj hkc
                simp at heq
              have hjk : j ≠ k := by
                intro hjk
                subst hjk
                obtain ⟨_, ⟨ce, hce, hcact, hcdata⟩, _⟩ :=
                  scanEndIter_spec cs i (cs.length + 1) i j hscan
                rw [hkc] at hce
                obtain rfl := Option.some.inj hce
                simp at hcdata
              refine ih _ _ _ _ _ _ h ?_
              rw [List.getElem?_set_ne hik, List.getElem?_set_ne hjk]
              exact hkc
        · exact absurd h (by simp)
      · -- VARIABLE
        rename_i heq
        split at h
        · rename_i d hdata
          split at h
          · have hik : i ≠ k := by
              intro hik
              subst hik
              rw [hc] at hkc
              obtain rfl := Option.some.inj hkc
              simp at heq
            refine ih _ _ _ _ _ _ h ?_
            rw [List.getElem?_set_ne hik]
            exact hkc
          · split at h
            · exact absurd h (by simp)
            · dsimp only [] at h
              split at h
              · exact absurd h (by simp)
              · exact ih _ _ _ _ _ _ h hkc
        · exact absurd h (by simp)
      · -- LAST
        obtain rfl : cs = out := Option.some.inj h
        exact hkc
      · -- every other action
        exact ih _ _ _ _ _ _ h hkc

/-- Whenever the walk visits an `IF_VARIABLE_NOT_EMPTY` chunk still
carrying its descriptor and the whole walk succeeds, that chunk ends up
holding a `(descriptor, end chunk)` record whose end chunk is the first
`END_IF_VARIABLE_NOT_EMPTY` at or after it referencing the same
descriptor, with `NO_FREE` cleared. -/
theorem postProcess_visits_if_links_first_close
    (cs out : List Chunk) (fuel i : Nat) (c : Chunk) (sym : VarDescriptor)
    (h : postProcess cs fuel i = some out)
    (hci : cs[i]? = some c)
    (hact : c.action = ACTION_IF_VARIABLE_NOT_EMPTY)
    (hdata : c.data = dVar sym) :
    ∃ j ce, scanEndVar cs (dVar sym) (cs.length + 1) i = some j ∧
      out[i]? = some ⟨ACTION_IF_VARIABLE_NOT_EMPTY, dChunkDesc sym j,
        { c.flags with no_free := false }⟩ ∧
      cs[j]? = some ce ∧ ce.action = ACTION_END_IF_VARIABLE_NOT_EMPTY ∧
      dataPtrEq ce.data (dVar sym) = true ∧
      (∀ m cm, i ≤ m → m < j → cs[m]? = some cm →
        ¬(cm.action = ACTION_END_IF_VARIABLE_NOT_EMPTY ∧
          dataPtrEq cm.data (dVar sym) = true)) := by
  match fuel with
  | 0 => simp [postProcess] at h
  | f + 1 =>
    rw [postProcess] at h
    simp only [hci, hact, hdata] at h
    split at h
    · exact absurd h (by simp)
    · rename_i j hscan
      obtain ⟨hle, ⟨ce, hce, hceact, hcedata⟩, hmin⟩ :=
        scanEndVar_spec cs (dVar sym) (cs.length + 1) i j hscan
      have hlt : i < cs.length := (List.getElem?_eq_some_iff.mp hci).1
      refine ⟨j, ce, hscan, ?_, hce, hceact, hcedata, ?_⟩
      · rw [postProcess_preserves_before f _ _ _ h i (by omega)]
        exact List.getElem?_set_self hlt
      · intro m cm h1 h2 hcm
        exact (hmin m cm h1 h2 hcm).2

/-- Whenever the walk visits a `START_ITER` chunk still carrying its
descriptor and the whole walk succeeds, that chunk ends up holding a
`(descriptor, end chunk)` record whose end chunk is one past the first
`END_ITER` storing this chunk's index, with `NO_FREE` cleared, and that
`END_ITER` ends up pointing back at the opening chunk with the open
chunk's flags or-ed in. -/
theorem postProcess_visits_iter_links_first_close
    (cs out : List Chunk) (fuel i : Nat) (c : Chunk) (sym : VarDescriptor)
    (h : postProcess cs fuel i = some out)
    (hci : cs[i]? = some c)
    (hact : c.action = ACTION_START_ITER)
    (hdata : c.data = dVar sym) :
    ∃ j ec, scanEndIter cs i (cs.length + 1) i = some j ∧
      cs[j]? = some ec ∧ ec.action = ACTION_END_ITER ∧
      ec.data = dIndex i ∧
      out[i]? = some ⟨ACTION_START_ITER, dChunkDesc sym (j + 1),
        { c.flags with no_free := false }⟩ ∧
      out[j]? = some ⟨ACTION_END_ITER, dChunkPtr i,
        Flags.union ec.flags c.flags⟩ ∧
      (∀ m cm, i ≤ m → m < j → cs[m]? = some cm →
        ¬(cm.action = ACTION_END_ITER ∧ cm.data = dIndex i)) := by
  match fuel with
  | 0 => simp [postProcess] at h
  | f + 1 =>
    rw [postProcess] at h
    simp only [hci, hact, hdata] at h
    split at h
    · exact absurd h (by simp)
    · rename_i j hscan
      obtain ⟨hle, ⟨ce, hce, hceact, hcedata⟩, hmin⟩ :=
        scanEndIter_spec cs i (cs.length + 1) i j hscan
      split at h
      · rename_i hec
        rw [hce] at hec
        exact absurd hec (by simp)
      · rename_i ec hec
        have hceec : ce = ec := by
          rw [hce] at hec
          exact Option.some.inj hec
        subst hceec
        rw [hceact] at h
        rw [if_neg (show ¬(ACTION_END_ITER = ACTION_LAST) from by decide)] at h
        have hlt : i < cs.length := (List.getElem?_eq_some_iff.mp hci).1
        have hjlt : j < cs.length := (List.getElem?_eq_some_iff.mp hce).1
        have hij : i ≠ j := by
          intro hij
          subst hij
          rw [hci] at hce
          obtain rfl := Option.some.inj hce
          rw [hact] at hceact
          exact absurd hceact (by decide)
        refine ⟨j, ce, hscan, hce, hceact, hcedata, ?_, ?_, ?_⟩
        · rw [postProcess_preserves_before f _ _ _ h i (by omega)]
          exact List.getElem?_set_self (by simpa using hlt)
        · refine postProcess_preserves_linked_end_iter f _ _ _ _ _ _ h ?_
          rw [List.getElem?_set_ne hij]
          exact List.getElem?_set_self hjlt
        · intro m cm h1 h2 hcm
          exact (hmin m cm h1 h2 hcm).2

/-- After processing an open chunk the walk resumes two chunks further
on, so the chunk immediately after a processed open chunk is not visited:
when that chunk is itself an open chunk (so it cannot be a scan target
either), it is left exactly as the parser emitted it. -/
theorem postProcess_skips_chunk_after_open
    (cs out : List Chunk) (fuel i : Nat) (c c1 : Chunk) (sym : VarDescriptor)
    (h : postProcess cs fuel i = some out)
    (hci : cs[i]? = some c)
    (hact : c.action = ACTION_IF_VARIABLE_NOT_EMPTY ∨
      c.action = ACTION_START_ITER)
    (hdata : c.data = dVar sym)
    (hc1 : cs[i + 1]? = some c1)
    (hact1 : c1.action = ACTION_IF_VARIABLE_NOT_EMPTY ∨
      c1.action = ACTION_START_ITER) :
    out[i + 1]? = some c1 := by
  match fuel with
  | 0 => simp [postProcess] at h
  | f + 1 =>
    rw [postProcess] at h
    rcases hact with hact | hact
    · simp only [hci, hact, hdata] at h
      split at h
      · exact absurd h (by simp)
      · rename_i j hscan
        rw [postProcess_preserves_before f _ _ _ h (i + 1) (by omega)]
        rw [List.getElem?_set_ne (by omega)]
        exact hc1
    · simp only [hci, hact, hdata] at h
      split at h
      · exact absurd h (by simp)
      · rename_i j hscan
        obtain ⟨hle, ⟨ce, hce, hceact, hcedata⟩, hmin⟩ :=
          scanEndIter_spec cs i (cs.length + 1) i j hscan
        split at h
        · rename_i hec
          rw [hce] at hec
          exact absurd hec (by simp)
        · rename_i ec hec
          have hceec : ce = ec := by
            rw [hce] at hec
            exact Option.some.inj hec
          subst hceec
          have hj1 : j ≠ i + 1 := by
            intro hj1
            rw [hj1, hc1] at hce
            obtain rfl := Option.some.inj hce
            rcases hact1 with hact1 | hact1 <;> rw [hact1] at hceact <;>
              exact absurd hceact (by decide)
          rw [postProcess_preserves_before f _ _ _ h (i + 1) (by omega)]
          rw [List.getElem?_set_ne (by omega)]
          rw [List.getElem?_set_ne (fun hj => hj1 hj)]
          exact hc1

/-- C2 amended: for every chunk program and every walk position — hence
for every visit the post-processing walk of every compiled template
makes — an `IF_VARIABLE_NOT_EMPTY` chunk visited while still carrying its
descriptor is linked to the *first* `END_IF_VARIABLE_NOT_EMPTY` at or
after it referencing the same descriptor (for nested conditionals on the
same descriptor this is the inner close, not the stack-matching one), and
a visited `START_ITER` chunk is linked to one past the first `END_ITER`
storing the open chunk's index, that `END_ITER`'s data then pointing back
at the opening chunk; in both cases `NO_FREE` is cleared on the open
chunk.  The walk resumes two chunks past a processed open chunk, so an
open chunk immediately following another open chunk is never visited and
keeps its raw descriptor data.  The concrete conjuncts exhibit all of
this on the compiled `{{x?}}{{x?}}A{{/x?}}{{/x?}}`: the outer open is
paired with chunk 3, the inner close, although its stack-matching close
is chunk 4, and the skipped inner open keeps `dVar` data and
`NO_FREE`. -/
theorem postProcessLinksFirstMatchingClose :
    (∀ (cs out : List Chunk) (fuel i : Nat) (c : Chunk)
      (sym : VarDescriptor),
      postProcess cs fuel i = some out →
      cs[i]? = some c →
      c.action = ACTION_IF_VARIABLE_NOT_EMPTY →
      c.data = dVar sym →
      ∃ j ce, scanEndVar cs (dVar sym) (cs.length + 1) i = some j ∧
        out[i]? = some ⟨ACTION_IF_VARIABLE_NOT_EMPTY, dChunkDesc sym j,
          { c.flags with no_free := false }⟩ ∧
        cs[j]? = some ce ∧ ce.action = ACTION_END_IF_VARIABLE_NOT_EMPTY ∧
        dataPtrEq ce.data (dVar sym) = true ∧
        (∀ m cm, i ≤ m → m < j → cs[m]? = some cm →
          ¬(cm.action = ACTION_END_IF_VARIABLE_NOT_EMPTY ∧
            dataPtrEq cm.data (dVar sym) = true))) ∧
    (∀ (cs out : List Chunk) (fuel i : Nat) (c : Chunk)
      (sym : VarDescriptor),
      postProcess cs fuel i = some out →
      cs[i]? = some c →
      c.action = ACTION_START_ITER →
      c.data = dVar sym →
      ∃ j ec, scanEndIter cs i (cs.length + 1) i = some j ∧
        cs[j]? = some ec ∧ ec.action = ACTION_END_ITER ∧
        ec.data = dIndex i ∧
        out[i]? = some ⟨ACTION_START_ITER, dChunkDesc sym (j + 1),
          { c.flags with no_free := false }⟩ ∧
        out[j]? = some ⟨ACTION_END_ITER, dChunkPtr i,
          Flags.union ec.flags c.flags⟩ ∧
        (∀ m cm, i ≤ m → m < j → cs[m]? = some cm →
          ¬(cm.action = ACTION_END_ITER ∧ cm.data = dIndex i))) ∧
    (∀ (cs out : List Chunk) (fuel i : Nat) (c c1 : Chunk)
      (sym : VarDescriptor),
      postProcess cs fuel i = some out →
      cs[i]? = some c →
      (c.action = ACTION_IF_VARIABLE_NOT_EMPTY ∨
        c.action = ACTION_START_ITER) →
      c.data = dVar sym →
      cs[i + 1]? = some c1 →
      (c1.action = ACTION_IF_VARIABLE_NOT_EMPTY ∨
        c1.action = ACTION_START_ITER) →
      out[i + 1]? = some c1) ∧
    (chunkAt (lwan_tpl_compile_string heap0 srcNestedIf [xDesc]) 0 =
      some ⟨ACTION_IF_VARIABLE_NOT_EMPTY, dChunkDesc xDesc 3, Flags.zero⟩ ∧
    chunkAt (lwan_tpl_compile_string heap0 srcNestedIf [xDesc]) 1 =
      some ⟨ACTION_IF_VARIABLE_NOT_EMPTY, dVar xDesc, ⟨false, false, true⟩⟩ ∧
    chunkAt (lwan_tpl_compile_string heap0 srcNestedIf [xDesc]) 3 =
      some ⟨ACTION_END_IF_VARIABLE_NOT_EMPTY, dVar xDesc, Flags.zero⟩ ∧
    chunkAt (lwan_tpl_compile_string heap0 srcNestedIf [xDesc]) 4 =
      some ⟨ACTION_END_IF_VARIABLE_NOT_EMPTY, dVar xDesc, Flags.zero⟩) :=
  ⟨postProcess_visits_if_links_first_close,
   postProcess_visits_iter_links_first_close,
   postProcess_skips_chunk_after_open,
   by decide, by decide, by decide, by decide⟩

/-- Witness for `postProcessLinksFirstMatchingClose`, applying its three
universal parts to the parser outputs for `{{x?}}{{x?}}A{{/x?}}{{/x?}}`
and `{{#items}}X{{/items}}Y`, all hypotheses discharged by computation. -/
theorem postProcessLinksFirstMatchingCloseWitness :
    (postProcess nestedIfPre 7 0 = some nestedIfPost ∧
      postProcess iterPre 6 0 = some iterPost) ∧
    (∃ j ce, scanEndVar nestedIfPre (dVar xDesc)
        (nestedIfPre.length + 1) 0 = some j ∧
      nestedIfPost[0]? = some ⟨ACTION_IF_VARIABLE_NOT_EMPTY,
        dChunkDesc xDesc j, Flags.zero⟩ ∧
      nestedIfPre[j]? = some ce ∧
      ce.action = ACTION_END_IF_VARIABLE_NOT_EMPTY ∧
      dataPtrEq ce.data (dVar xDesc) = true ∧
      (∀ m cm, 0 ≤ m → m < j → nestedIfPre[m]? = some cm →
        ¬(cm.action = ACTION_END_IF_VARIABLE_NOT_EMPTY ∧
          dataPtrEq cm.data (dVar xDesc) = true))) ∧
    (∃ j ec, scanEndIter iterPre 0 (iterPre.length + 1) 0 = some j ∧
      iterPre[j]? = some ec ∧ ec.action = ACTION_END_ITER ∧
      ec.data = dIndex 0 ∧
      iterPost[0]? = some ⟨ACTION_START_ITER,
        dChunkDesc itemsDesc (j + 1), Flags.zero⟩ ∧
      iterPost[j]? = some ⟨ACTION_END_ITER, dChunkPtr 0,
        Flags.union ec.flags ⟨false, false, true⟩⟩ ∧
      (∀ m cm, 0 ≤ m → m < j → iterPre[m]? = some cm →
        ¬(cm.action = ACTION_END_ITER ∧ cm.data = dIndex 0))) ∧
    nestedIfPost[1]? =
      some ⟨ACTION_IF_VARIABLE_NOT_EMPTY, dVar xDesc, ⟨false, false, true⟩⟩ :=
  ⟨⟨by decide, by decide⟩,
   postProcessLinksFirstMatchingClose.1 nestedIfPre nestedIfPost 7 0
     ⟨ACTION_IF_VARIABLE_NOT_EMPTY, dVar xDesc, ⟨false, false, true⟩⟩ xDesc
     (by decide) (by decide) rfl rfl,
   postProcessLinksFirstMatchingClose.2.1 iterPre iterPost 6 0
     ⟨ACTION_START_ITER, dVar itemsDesc, ⟨false, false, true⟩⟩ itemsDesc
     (by decide) (by decide) rfl rfl,
   postProcessLinksFirstMatchingClose.2.2.1 nestedIfPre nestedIfPost 7 0
     ⟨ACTION_IF_VARIABLE_NOT_EMPTY, dVar xDesc, ⟨false, false, true⟩⟩
     ⟨ACTION_IF_VARIABLE_NOT_EMPTY, dVar xDesc, ⟨false, false, true⟩⟩ xDesc
     (by decide) (by decide) (Or.inl rfl) rfl (by decide) (Or.inl rfl)⟩

/-! ### Claim C3 -/

/-- C3 counterexample: escaping the input `"<"` produces `"&lt;"`, which
contains `'&'` — one of the characters the claim says never occurs in the
escaped output.  So the output is not free of all of `<>&"'/`. -/
theorem escapedOutputContainsAmpersand :
    lwan_append_str_escaped_to_strbuf (some (some ['<'])) =
      ('&' :: 'l' :: 't' :: ';' :: []) ∧
    '&' ∈ lwan_append_str_escaped_to_strbuf (some (some ['<'])) := by
  refine ⟨by decide, by decide⟩

/-- C3 amended: for every input string, the escaped output contains no
occurrence of `<`, `>`, `"`, `'` or `/`; the escape sequences themselves
introduce `&`, so `&` (alone among the claim's six characters) can occur
in the output. -/
theorem escapedOutputNoRawSpecials (s : Str) (c : Char)
    (h : c ∈ lwan_append_str_escaped_to_strbuf (some (some s))) :
    c ≠ '<' ∧ c ≠ '>' ∧ c ≠ quoteChar ∧ c ≠ aposChar ∧ c ≠ '/' := by
  simp only [lwan_append_str_escaped_to_strbuf] at h
  induction s with
  | nil => simp [escapeByteList] at h
  | cons a tl ih =>
    rw [escapeByteList] at h
    rcases List.mem_append.1 h with h1 | h2
    · split_ifs at h1 with h3 h4 h5 h6 h7 h8
      · fin_cases h1 <;> decide
      · fin_cases h1 <;> decide
      · fin_cases h1 <;> decide
      · fin_cases h1 <;> decide
      · fin_cases h1 <;> decide
      · fin_cases h1 <;> decide
      · simp only [List.mem_singleton] at h1
        subst h1
        exact ⟨h3, h4, h6, h7, h8⟩
    · exact ih h2

/-- Witness for `escapedOutputNoRawSpecials` at the concrete input
`s = "a"`, `c = 'a'`. -/
theorem escapedOutputNoRawSpecialsWitness :
    'a' ∈ lwan_append_str_escaped_to_strbuf (some (some ['a'])) ∧
    ('a' ≠ '<' ∧ 'a' ≠ '>' ∧ 'a' ≠ quoteChar ∧ 'a' ≠ aposChar ∧
      'a' ≠ '/') :=
  ⟨by decide, escapedOutputNoRawSpecials ['a'] 'a' (by decide)⟩

/-! ### Claim C4 -/

/-- The per-byte escape table as the specification states it:
`< → &lt;`, `> → &gt;`, `& → &amp;`, `" → &quot;`, `' → &#x27;`,
`/ → &#x2f;`, all other bytes copied as-is.  (This definition follows the
spec's words; the theorem compares the source-derived function against
it.) -/
def escape_byte_spec (c : Char) : Str :=
  if c = '<' then ("&lt;").toList
  else if c = '>' then ("&gt;").toList
  else if c = '&' then ("&amp;").toList
  else if c = quoteChar then ("&quot;").toList
  else if c = aposChar then ("&#x27;").toList
  else if c = '/' then ("&#x2f;").toList
  else [c]

/-- C4: executing `VARIABLE_STR_ESCAPE` appends, for each byte of the
string in order, exactly the fixed escape mapping of the spec — the
source escape loop equals the join of the per-byte spec table — and
rendering `{{{s}}}` with `s = "<&\"/>"` yields
`"&lt;&amp;&quot;&#x2f;&gt;"`. -/
theorem variableStrEscapeIsFixedByteMap :
    (∀ s : Str, lwan_append_str_escaped_to_strbuf (some (some s)) =
      (s.map escape_byte_spec).flatten) ∧
    renderOf heap0 genvDefault aenvDefault eenvDefault 32 srcTripleS [sDesc]
      (recOfStr (some ('<' :: '&' :: quoteChar :: '/' :: '>' :: []))) =
      some (("&lt;&amp;&quot;&#x2f;&gt;").toList) := by
  refine ⟨fun s => ?_, by decide⟩
  simp only [lwan_append_str_escaped_to_strbuf]
  induction s with
  | nil => rfl
  | cons a tl ih =>
    rw [escapeByteList, ih]
    simp only [List.map_cons, List.flatten_cons]
    congr 1

/-! ### Claim C5 -/

/-- C5: the claim says `lwan_tpl_double_is_empty` returns true exactly on
IEEE zeros.  The compiled branch (under `HAVE_BUILTIN_FPCLASSIFY`, set on
every GCC/Clang build) returns `__builtin_fpclassify(FP_NAN, FP_INFINITE,
FP_NORMAL, FP_SUBNORMAL, FP_ZERO, x)` converted to `bool` — i.e. the
classification constant itself compared against 0 — with no `== FP_ZERO`
comparison.  With the libc constants (`FP_NAN = 0`, all others nonzero)
the predicate is true for every double except NaNs: at the failing input
1.0 it returns true although the value is 1 ≠ 0.  The `#else` branch
(`fpclassify(x) == FP_ZERO`) behaves as the claim states, on 1.0 and on
both zeros, showing the two branches disagree and the `#if` branch is the
slip. -/
theorem doubleIsEmptyBuiltinBranchMisclassifies :
    lwan_tpl_double_is_empty floatOne = true ∧
    floatVal floatOne = 1 ∧
    lwan_tpl_double_is_empty_fpclassify floatOne = false ∧
    lwan_tpl_double_is_empty_fpclassify floatPosZero = true ∧
    lwan_tpl_double_is_empty_fpclassify floatNegZero = true ∧
    floatVal floatPosZero = 0 ∧
    floatVal floatNegZero = 0 := by
  refine ⟨by decide, ?_, by decide, by decide, by decide, ?_, ?_⟩
  · norm_num [floatVal, floatOne]
  · norm_num [floatVal, floatPosZero]
  · norm_num [floatVal, floatNegZero]

/-! ### Claim C6 -/

/-- C6 counterexample: `{{unknown}}` contains no open tags at all (the
open-tag stack reaching `parser_shutdown` is empty, so every `#`/`?`/`^`
open trivially has a matching close), yet compilation against an empty
descriptor set fails — balance does not imply compile success, so the
claimed equivalence is false. -/
theorem balancedSourceCanFailToCompile :
    lwan_tpl_compile_string heap0 srcUnknown [] = none ∧
    stackAtShutdown heap0 srcUnknown [] = [] := by
  refine ⟨by decide, by decide⟩

/-- C6 amended: matched open tags are necessary but not sufficient for
compile success: whenever open tags are still pending at end of input
(the parser's open-tag stack reaching `parser_shutdown` is nonempty),
compilation returns null — equivalently, a successful compilation has an
empty stack, every open having been matched; the converse direction of
the claim fails (a balanced source can still fail, e.g. on an unknown
variable). -/
theorem pendingOpenTagsForceCompileFailure (heap : DescHeap) (src : Str)
    (descs : List VarDescriptor)
    (h : stackAtShutdown heap src descs ≠ []) :
    lwan_tpl_compile_string heap src descs = none := by
  unfold lwan_tpl_compile_string lwan_tpl_compile_string_full
  unfold stackAtShutdown at h
  rcases hps : parseToShutdown heap src descs with ⟨p, lx⟩
  rw [hps] at h
  have hstack : p.stack.isEmpty = false := by
    simpa [List.isEmpty_iff] using h
  simp [parser_shutdown, hstack]

/-- Witness for `pendingOpenTagsForceCompileFailure`: `{{#items}}` leaves
the identifier `items` pending on the stack and fails to compile. -/
theorem pendingOpenTagsForceCompileFailureWitness :
    stackAtShutdown heap0 srcOpenIter [itemsDesc] ≠ [] ∧
    lwan_tpl_compile_string heap0 srcOpenIter [itemsDesc] = none :=
  ⟨by decide,
    pendingOpenTagsForceCompileFailure heap0 srcOpenIter [itemsDesc]
      (by decide)⟩

/-! ### Claim C7 -/

/-- C7: identifier resolution checks the 64-byte limit first —
`symtab_lookup_lexeme` performs the ordinary symbol-table lookup for every
lexeme of length at most 64 and rejects (returns NULL, failing the
compilation with an error) every longer lexeme.  End to end: a variable
whose name is 64 `a`s compiles, while the same template with 65 `a`s
fails even though a matching descriptor exists. -/
theorem identifierLengthLimit :
    (∀ (p : Parser) (lx : Lexeme), symtab_lookup_lexeme p lx =
      if 64 < lx.value.length then none
      else symtab_lookup p.symtab lx.value) ∧
    (lwan_tpl_compile_string heap0 srcIdent64 [aDesc64]).isSome = true ∧
    lwan_tpl_compile_string heap0 srcIdent65 [aDesc65] = none := by
  refine ⟨fun p lx => rfl, by decide, by decide⟩

/-! ### Claim C8 -/

/-- C8: rendering the compiled `{{x?}}X{{/x?}}Y` yields `"Y"` when the
string field `x` is empty and `"XY"` when `x = "a"`: the body runs iff
`is_empty` is false, and execution resumes right after the end chunk in
both cases. -/
theorem conditionalRenderScenario :
    renderOf heap0 genvDefault aenvDefault eenvDefault 32 srcCondY [xDesc]
      (recOfStr (some [])) = some ['Y'] ∧
    renderOf heap0 genvDefault aenvDefault eenvDefault 32 srcCondY [xDesc]
      (recOfStr (some ['a'])) = some ('X' :: 'Y' :: []) := by
  refine ⟨by decide, by decide⟩

/-! ### Claim C9 -/

/-- C9: compiling the empty string succeeds for every descriptor set,
producing the template whose program is the single `LAST` chunk and whose
`minimum_size` is 0, and applying that template to any record (under any
environments, with any fuel) produces empty output. -/
theorem emptyTemplateCompilesToLastOnly (heap : DescHeap)
    (descs : List VarDescriptor) (genv : GenEnv) (aenv : AppendEnv)
    (eenv : EmptyEnv) (vars : Record) (fuel : Nat) :
    lwan_tpl_compile_string heap [] descs =
      some ⟨[⟨ACTION_LAST, dNull, Flags.zero⟩], 0⟩ ∧
    lwan_tpl_apply genv aenv eenv (fuel + 1)
      ⟨[⟨ACTION_LAST, dNull, Flags.zero⟩], 0⟩ vars = some [] := by
  exact ⟨rfl, rfl⟩

/-! ### Claim C10 -/

/-- C10: `VARIABLE_STR_ESCAPE` on a NULL string — whether the field
pointer itself is NULL or the `char *` stored in the field is NULL —
appends nothing, and rendering continues normally: `{{{s}}}Y` with a NULL
`s` renders `"Y"`. -/
theorem escapedNullStringAppendsNothing :
    lwan_append_str_escaped_to_strbuf none = [] ∧
    lwan_append_str_escaped_to_strbuf (some none) = [] ∧
    renderOf heap0 genvDefault aenvDefault eenvDefault 32 srcTripleSY [sDesc]
      (recOfStr none) = some ['Y'] := by
  refine ⟨by decide, by decide, by decide⟩

end Lwan
